import Mathlib

/-!
# BeastBet Cloud — verification of the ingestion and query layer

Shallow embedding of `src/main.py`.  Odds (Python floats) are modelled as
rationals; timestamps (`datetime.utcnow().isoformat()` strings) as a
monotone natural-number clock carried in the state; the SQLite tables and
the master CSV as lists inside an explicit `DB` state that every mutating
operation threads through.
-/

namespace BeastBet

/-- Pydantic `MatchIn`: an incoming match record. -/
structure MatchIn where
  match_id : Int
  home : String
  away : String
  odds_h : ℚ
  odds_x : ℚ
  odds_a : ℚ
  source : String := "client"
  deriving DecidableEq, Repr

/-- Pydantic `ResultIn`: an incoming result record. -/
structure ResultIn where
  match_id : Int
  ht_score : Option String := none
  ft_score : Option String := none
  source : String := "client"
  deriving DecidableEq, Repr

/-- A row of the `matches` table (`match_id` is the primary key;
`created_at` is the timestamp refreshed on every accepted write). -/
structure MatchRow where
  match_id : Int
  home : String
  away : String
  odds_h : ℚ
  odds_x : ℚ
  odds_a : ℚ
  source : String
  created_at : Nat
  deriving DecidableEq, Repr

/-- A row of the `results` table (`id` is the AUTOINCREMENT key). -/
structure ResultRow where
  id : Nat
  match_id : Int
  ht_score : Option String
  ft_score : Option String
  result_at : Nat
  source : String
  deriving DecidableEq, Repr

/-- One data line of the master CSV (the audit log): the full field
snapshot plus the write's timestamp, as written by `writer.writerow`. -/
structure CsvLine where
  match_id : Int
  home : String
  away : String
  odds_h : ℚ
  odds_x : ℚ
  odds_a : ℚ
  source : String
  created_at : Nat
  deriving DecidableEq, Repr

/-- The persistent state: the two SQLite tables, the master CSV data
lines, and the clock supplying `datetime.utcnow()` values. -/
structure DB where
  «matches» : List MatchRow
  results : List ResultRow
  csv : List CsvLine
  clock : Nat
  deriving DecidableEq, Repr

/-- The freshly initialised state (`init_db` + `init_csv`). -/
def DB.empty : DB := ⟨[], [], [], 0⟩

/-- Response body `{"status": ..., "match_id": ...}` of the write
endpoints. -/
structure IngestOutcome where
  status : String
  match_id : Int
  deriving DecidableEq, Repr

/-- `SELECT * FROM matches WHERE match_id=?` followed by `fetchone`. -/
def DB.findMatch (db : DB) (id : Int) : Option MatchRow :=
  db.«matches».find? (fun r => r.match_id == id)

/-- The CSV line appended for an accepted write of `m` at time `now`. -/
def csvLineOf (m : MatchIn) (now : Nat) : CsvLine :=
  ⟨m.match_id, m.home, m.away, m.odds_h, m.odds_x, m.odds_a, m.source, now⟩

/-- The row the `INSERT` statement creates for `m` at time `now`. -/
def rowOf (m : MatchIn) (now : Nat) : MatchRow :=
  ⟨m.match_id, m.home, m.away, m.odds_h, m.odds_x, m.odds_a, m.source, now⟩

/-- The effect of `UPDATE matches SET home=?, away=?, odds_h=?, odds_x=?,
odds_a=?, source=?, created_at=? WHERE match_id=?` on a single row: rows
whose key matches get every listed field overwritten; others are left
alone. -/
def overwriteRow (m : MatchIn) (now : Nat) (r : MatchRow) : MatchRow :=
  if r.match_id == m.match_id then
    { r with home := m.home, away := m.away, odds_h := m.odds_h,
             odds_x := m.odds_x, odds_a := m.odds_a,
             source := m.source, created_at := now }
  else r

/-- `insert_or_update_match` (src/main.py lines 116-149): under the write
lock, look the id up; if a row exists overwrite all its fields and the
timestamp, else insert a new row; in both branches append one CSV line
with the same timestamp and report which branch ran. -/
def insert_or_update_match (m : MatchIn) (db : DB) : IngestOutcome × DB :=
  let now := db.clock
  match db.findMatch m.match_id with
  | some _ =>
      (⟨"updated", m.match_id⟩,
       { db with «matches» := db.«matches».map (overwriteRow m now),
                 csv := db.csv ++ [csvLineOf m now],
                 clock := db.clock + 1 })
  | none =>
      (⟨"inserted", m.match_id⟩,
       { db with «matches» := db.«matches» ++ [rowOf m now],
                 csv := db.csv ++ [csvLineOf m now],
                 clock := db.clock + 1 })

/-- `insert_result` (src/main.py lines 151-163): append one row to the
`results` table; the CSV is untouched. -/
def insert_result (r : ResultIn) (db : DB) : IngestOutcome × DB :=
  let now := db.clock
  let row : ResultRow :=
    ⟨db.results.length + 1, r.match_id, r.ht_score, r.ft_score, now, r.source⟩
  (⟨"inserted_result", r.match_id⟩,
   { db with results := db.results ++ [row], clock := db.clock + 1 })

/-- Error raised by the `add_match` endpoint when validation fails
(HTTP 400 "Odds must be > 1.0"). -/
inductive ApiErr where
  | invalidOdds
  deriving DecidableEq, Repr

/-- `add_match` (src/main.py lines 168-174): reject with `invalidOdds`
when any of the three odds is `<= 1`, leaving the state untouched;
otherwise delegate to `insert_or_update_match`. -/
def add_match (m : MatchIn) (db : DB) : Except ApiErr IngestOutcome × DB :=
  if m.odds_h ≤ 1 ∨ m.odds_x ≤ 1 ∨ m.odds_a ≤ 1 then
    (.error .invalidOdds, db)
  else
    let r := insert_or_update_match m db
    (.ok r.1, r.2)

/-- Response body of `upload_matches`. -/
structure UploadResp where
  status : String
  count : Nat
  results : List IngestOutcome
  deriving DecidableEq, Repr

/-- One iteration of the `for m in payload.matches` loop of
`upload_matches`: write the record against the state accumulated so far
and append its outcome to the response list. -/
def batchStep (acc : List IngestOutcome × DB) (m : MatchIn) :
    List IngestOutcome × DB :=
  let r := insert_or_update_match m acc.2
  (acc.1 ++ [r.1], r.2)

/-- `upload_matches` (src/main.py lines 181-187): call
`insert_or_update_match` on each element in order — note that this path
performs no odds validation — collecting one outcome per element. -/
def upload_matches (ms : List MatchIn) (db : DB) : UploadResp × DB :=
  let r := ms.foldl batchStep ([], db)
  (⟨"ok", r.1.length, r.1⟩, r.2)

/-- Recursive presentation of the `upload_matches` loop, used to reason
about it by induction. -/
def runBatch : List MatchIn → DB → List IngestOutcome × DB
  | [], db => ([], db)
  | m :: ms, db =>
      let r1 := insert_or_update_match m db
      let rest := runBatch ms r1.2
      (r1.1 :: rest.1, rest.2)

/-- Ordering used by `show_matches`: row `a` precedes row `b` when its
timestamp is at least `b`'s (`ORDER BY created_at DESC`). -/
def byRecency (a b : MatchRow) : Prop := b.created_at ≤ a.created_at

instance : DecidableRel byRecency := fun a b =>
  inferInstanceAs (Decidable (b.created_at ≤ a.created_at))

instance : IsTotal MatchRow byRecency :=
  ⟨fun a b => Nat.le_total b.created_at a.created_at⟩

instance : IsTrans MatchRow byRecency :=
  ⟨fun _ _ _ h1 h2 => Nat.le_trans h2 h1⟩

/-- `show_matches` (src/main.py lines 189-197):
`SELECT * FROM matches ORDER BY created_at DESC`. -/
def show_matches (db : DB) : List MatchRow :=
  List.insertionSort byRecency db.«matches»

/-- The three outcomes of a match. -/
inductive Pick where
  | HOME
  | DRAW
  | AWAY
  deriving DecidableEq, Repr

/-- `min(odds, key=odds.get)` over the dict
`{"HOME": h, "DRAW": x, "AWAY": a}`: iterate in insertion order, keeping
the current key unless the next value is strictly smaller. -/
def pickMin (h x a : ℚ) : Pick :=
  let p1 : Pick × ℚ := (Pick.HOME, h)
  let p2 : Pick × ℚ := if x < p1.2 then (Pick.DRAW, x) else p1
  let p3 : Pick × ℚ := if a < p2.2 then (Pick.AWAY, a) else p2
  p3.1

/-- The stored odds of a given pick. -/
def oddsOf (p : Pick) (h x a : ℚ) : ℚ :=
  match p with
  | .HOME => h
  | .DRAW => x
  | .AWAY => a

/-- Python's banker's rounding of a number to an integer
(round half to even). -/
def roundHalfEven (q : ℚ) : ℤ :=
  let f := ⌊q⌋
  if q - f < 1/2 then f
  else if (1:ℚ)/2 < q - f then f + 1
  else if f % 2 = 0 then f else f + 1

/-- Python's `round(x, 2)`. -/
def pyRound2 (q : ℚ) : ℚ := (roundHalfEven (q * 100) : ℚ) / 100

/-- The response body of the `predict` endpoint. -/
structure Prediction where
  match_id : Int
  home : String
  away : String
  pick : Pick
  confidence : ℚ
  odds_used : ℚ
  deriving DecidableEq, Repr

/-- How `predict` can fail: HTTP 404 when the id is unknown, or an
uncaught `ZeroDivisionError` from `1.0 / odds[pick]`. -/
inductive PredictErr where
  | notFound
  | zeroDivision
  deriving DecidableEq, Repr

/-- `predict` (src/main.py lines 220-241): look the match up (404 when
absent); pick the outcome with the lowest odds; `1.0 / odds[pick]`
raises `ZeroDivisionError` when those odds are zero, and otherwise the
quotient is clamped to `[0.5, 0.95]` and rounded to two decimals. -/
def predict (match_id : Int) (db : DB) : Except PredictErr Prediction :=
  match db.findMatch match_id with
  | none => .error .notFound
  | some row =>
      let pick := pickMin row.odds_h row.odds_x row.odds_a
      let odds := oddsOf pick row.odds_h row.odds_x row.odds_a
      if odds = 0 then .error .zeroDivision
      else
        .ok ⟨row.match_id, row.home, row.away, pick,
             pyRound2 (max (1/2) (min (19/20) (1 / odds))), odds⟩

/-- The spec's example batch: five records, the third with `odds_h = 1`
(not strictly greater than 1). -/
def batch5 : List MatchIn :=
  [⟨1, "A1", "B1", 2, 3, 4, "s"⟩, ⟨2, "A2", "B2", 2, 3, 4, "s"⟩,
   ⟨3, "A3", "B3", 1, 3, 4, "s"⟩, ⟨4, "A4", "B4", 2, 3, 4, "s"⟩,
   ⟨5, "A5", "B5", 2, 3, 4, "s"⟩]

/-- The spec's `predict` scenario record: odds 1.5 / 3.0 / 6.0. -/
def matchA : MatchIn := ⟨1, "Alpha", "Beta", 3/2, 3, 6, "c"⟩

/-- A store holding just `matchA`. -/
def dbA : DB := (insert_or_update_match matchA DB.empty).2

/-- The spec's tie scenario record: all three odds equal to 2.0. -/
def matchT : MatchIn := ⟨2, "T1", "T2", 2, 2, 2, "c"⟩

/-- A store holding just `matchT`. -/
def dbT : DB := (insert_or_update_match matchT DB.empty).2

/-! ## Lemmas about the write path -/

/-- The SQL `UPDATE` never touches the key column. -/
theorem overwriteRow_match_id (m : MatchIn) (now : Nat) (r : MatchRow) :
    (overwriteRow m now r).match_id = r.match_id := by
  unfold overwriteRow
  split <;> rfl

/-- After a write of `m`, looking `m.match_id` up returns the row built
from `m`'s fields and the write's timestamp, in both branches. -/
theorem findMatch_after_write (m : MatchIn) (db : DB) :
    ((insert_or_update_match m db).2).findMatch m.match_id =
      some (rowOf m db.clock) := by
  cases h : db.findMatch m.match_id with
  | none =>
      simp only [insert_or_update_match, h]
      simp only [DB.findMatch] at h ⊢
      rw [List.find?_append, h]
      simp [rowOf]
  | some r =>
      simp only [insert_or_update_match, h]
      simp only [DB.findMatch] at h ⊢
      have hpred :
          ((fun r' : MatchRow => r'.match_id == m.match_id) ∘
            overwriteRow m db.clock) =
          fun r' : MatchRow => r'.match_id == m.match_id := by
        funext r'
        simp [Function.comp, overwriteRow_match_id]
      rw [List.find?_map, hpred, h]
      have hr : r.match_id = m.match_id := by
        have := List.find?_some h
        simpa using this
      simp [overwriteRow, hr, rowOf]

/-- The write endpoint reports the record's own id, and its status is one
of the two upsert branches. -/
theorem outcome_after_write (m : MatchIn) (db : DB) :
    (insert_or_update_match m db).1.match_id = m.match_id ∧
    ((insert_or_update_match m db).1.status = "inserted" ∨
     (insert_or_update_match m db).1.status = "updated") := by
  cases h : db.findMatch m.match_id <;>
    simp [insert_or_update_match, h]

/-- A write never removes a key from the matches table. -/
theorem exists_id_after_write (m : MatchIn) (db : DB) (i : Int)
    (hex : ∃ r ∈ db.«matches», r.match_id = i) :
    ∃ r ∈ ((insert_or_update_match m db).2).«matches», r.match_id = i := by
  obtain ⟨r, hmem, hid⟩ := hex
  cases h : db.findMatch m.match_id with
  | none =>
      exact ⟨r, by simp [insert_or_update_match, h, List.mem_append, hmem], hid⟩
  | some r0 =>
      refine ⟨overwriteRow m db.clock r, ?_, ?_⟩
      · simp only [insert_or_update_match, h]
        exact List.mem_map_of_mem _ hmem
      · rw [overwriteRow_match_id]
        exact hid

/-- A write of `m` leaves a row keyed `m.match_id` in the table. -/
theorem exists_self_after_write (m : MatchIn) (db : DB) :
    ∃ r ∈ ((insert_or_update_match m db).2).«matches»,
      r.match_id = m.match_id := by
  have h := findMatch_after_write m db
  refine ⟨rowOf m db.clock, ?_, rfl⟩
  exact List.mem_of_find?_eq_some h

/-- The key column of the table, before and after a write: an update
leaves it unchanged, an insert appends the new key. -/
theorem nodup_ids_after_write (m : MatchIn) (db : DB)
    (hnd : (db.«matches».map MatchRow.match_id).Nodup) :
    (((insert_or_update_match m db).2).«matches».map
      MatchRow.match_id).Nodup := by
  cases h : db.findMatch m.match_id with
  | some r0 =>
      simp only [insert_or_update_match, h]
      have hids :
          (db.«matches».map (overwriteRow m db.clock)).map MatchRow.match_id =
            db.«matches».map MatchRow.match_id := by
        rw [List.map_map]
        have : MatchRow.match_id ∘ overwriteRow m db.clock =
            MatchRow.match_id := by
          funext r'
          exact overwriteRow_match_id m db.clock r'
        rw [this]
      rw [hids]
      exact hnd
  | none =>
      simp only [insert_or_update_match, h]
      simp only [DB.findMatch, List.find?_eq_none] at h
      have hnotin : m.match_id ∉ db.«matches».map MatchRow.match_id := by
        intro hin
        obtain ⟨r, hrmem, hrid⟩ := List.mem_map.mp hin
        exact h r hrmem (by simp [hrid])
      simp [List.nodup_append, rowOf, hnd, hnotin]

/-! ## Lemmas about the batch loop -/

/-- The `for` loop of `upload_matches`, folded from an arbitrary
accumulated response list, equals its recursive presentation. -/
theorem foldl_batchStep_eq (ms : List MatchIn) :
    ∀ (acc : List IngestOutcome) (db : DB),
      ms.foldl batchStep (acc, db) =
        (acc ++ (runBatch ms db).1, (runBatch ms db).2) := by
  induction ms with
  | nil => intro acc db; simp [runBatch]
  | cons m ms ih =>
      intro acc db
      simp only [List.foldl_cons, batchStep, runBatch]
      rw [ih]
      simp

/-- `upload_matches`, expressed through `runBatch`. -/
theorem upload_matches_eq (ms : List MatchIn) (db : DB) :
    upload_matches ms db =
      (⟨"ok", (runBatch ms db).1.length, (runBatch ms db).1⟩,
       (runBatch ms db).2) := by
  simp [upload_matches, foldl_batchStep_eq]

/-- The batch loop emits outcomes pointwise against its input: same id,
status one of the two upsert branches. -/
theorem runBatch_outcomes (ms : List MatchIn) :
    ∀ db : DB,
      List.Forall₂ (fun (o : IngestOutcome) (m : MatchIn) =>
          o.match_id = m.match_id ∧
          (o.status = "inserted" ∨ o.status = "updated"))
        (runBatch ms db).1 ms := by
  induction ms with
  | nil => intro db; simp [runBatch]
  | cons m ms ih =>
      intro db
      simp only [runBatch]
      exact List.Forall₂.cons (outcome_after_write m db) (ih _)

/-- The batch loop never removes a key from the matches table. -/
theorem runBatch_preserves_id (ms : List MatchIn) :
    ∀ (db : DB) (i : Int), (∃ r ∈ db.«matches», r.match_id = i) →
      ∃ r ∈ ((runBatch ms db).2).«matches», r.match_id = i := by
  induction ms with
  | nil => intro db i hex; simpa [runBatch] using hex
  | cons m ms ih =>
      intro db i hex
      exact ih _ i (exists_id_after_write m db i hex)

/-- Every record of a batch ends up keyed in the matches table. -/
theorem runBatch_writes_all (ms : List MatchIn) :
    ∀ (db : DB) (m : MatchIn), m ∈ ms →
      ∃ r ∈ ((runBatch ms db).2).«matches», r.match_id = m.match_id := by
  induction ms with
  | nil => intro db m hm; cases hm
  | cons m0 ms ih =>
      intro db m hm
      rcases List.mem_cons.mp hm with h | h
      · subst h
        exact runBatch_preserves_id ms _ m.match_id
          (exists_self_after_write m db)
      · exact ih _ m h

/-- The batch loop preserves key uniqueness. -/
theorem runBatch_nodup (ms : List MatchIn) :
    ∀ db : DB, (db.«matches».map MatchRow.match_id).Nodup →
      (((runBatch ms db).2).«matches».map MatchRow.match_id).Nodup := by
  induction ms with
  | nil => intro db h; simpa [runBatch] using h
  | cons m ms ih =>
      intro db h
      exact ih _ (nodup_ids_after_write m db h)

/-! ## Lemmas about the prediction heuristic -/

/-- The pick is HOME exactly when the home odds are a (weak) minimum:
Python's `min` keeps the earlier key on ties. -/
theorem pickMin_eq_HOME (h x a : ℚ) :
    pickMin h x a = .HOME ↔ h ≤ x ∧ h ≤ a := by
  simp only [pickMin]
  split_ifs with h1 h2 h3 <;>
    constructor <;> intro hc
  · exact absurd hc (by simp)
  · exfalso; linarith [hc.1]
  · exact absurd hc (by simp)
  · exfalso; linarith [hc.1]
  · exact absurd hc (by simp)
  · exfalso; linarith [hc.2]
  · exact ⟨by linarith, by linarith⟩
  · rfl

/-- The pick is DRAW exactly when the draw odds strictly beat the home
odds and weakly beat the away odds. -/
theorem pickMin_eq_DRAW (h x a : ℚ) :
    pickMin h x a = .DRAW ↔ x < h ∧ x ≤ a := by
  simp only [pickMin]
  split_ifs with h1 h2 h3 <;>
    constructor <;> intro hc
  · exact absurd hc (by simp)
  · exfalso; linarith [hc.2]
  · exact ⟨by linarith, by linarith⟩
  · rfl
  · exact absurd hc (by simp)
  · exfalso; linarith [hc.1]
  · exact absurd hc (by simp)
  · exfalso; linarith [hc.1]

/-- The pick is AWAY exactly when the away odds strictly beat both. -/
theorem pickMin_eq_AWAY (h x a : ℚ) :
    pickMin h x a = .AWAY ↔ a < h ∧ a < x := by
  simp only [pickMin]
  split_ifs with h1 h2 h3 <;>
    constructor <;> intro hc
  · exact ⟨by linarith, by linarith⟩
  · rfl
  · exact absurd hc (by simp)
  · exfalso; linarith [hc.2]
  · exact ⟨by linarith, by linarith⟩
  · rfl
  · exact absurd hc (by simp)
  · exfalso; linarith [hc.1]

/-- The odds of the pick are a minimum of the three stored odds. -/
theorem oddsOf_pickMin_le (h x a : ℚ) :
    oddsOf (pickMin h x a) h x a ≤ h ∧
    oddsOf (pickMin h x a) h x a ≤ x ∧
    oddsOf (pickMin h x a) h x a ≤ a := by
  simp only [pickMin]
  split_ifs <;>
    refine ⟨?_, ?_, ?_⟩ <;>
      simp only [oddsOf] <;> linarith

/-- The success branch of `predict`: the match is found and the division
does not blow up. -/
theorem predict_found (id : Int) (db : DB) (r : MatchRow)
    (hf : db.findMatch id = some r)
    (hnz : oddsOf (pickMin r.odds_h r.odds_x r.odds_a)
      r.odds_h r.odds_x r.odds_a ≠ 0) :
    predict id db =
      .ok ⟨r.match_id, r.home, r.away,
        pickMin r.odds_h r.odds_x r.odds_a,
        pyRound2 (max (1/2) (min (19/20)
          (1 / oddsOf (pickMin r.odds_h r.odds_x r.odds_a)
            r.odds_h r.odds_x r.odds_a))),
        oddsOf (pickMin r.odds_h r.odds_x r.odds_a)
          r.odds_h r.odds_x r.odds_a⟩ := by
  simp [predict, hf, hnz]

/-! ## The claims -/

/-- C1 (counterexample): on the spec's own example batch — five records
of which the third has `odds_h = 1`, odds not strictly greater than 1 —
`upload_matches` does not mark the third record `InvalidOdds`: it marks
all five `inserted`, and the invalid record's write is present in the
store afterwards. -/
theorem C1_counterexample :
    (upload_matches batch5 DB.empty).1.results =
      [⟨"inserted", 1⟩, ⟨"inserted", 2⟩, ⟨"inserted", 3⟩,
       ⟨"inserted", 4⟩, ⟨"inserted", 5⟩] ∧
    (upload_matches batch5 DB.empty).2.findMatch 3 =
      some ⟨3, "A3", "B3", 1, 3, 4, "s", 2⟩ ∧
    ¬ (1 : ℚ) > 1 :=
  ⟨rfl, rfl, by norm_num⟩

/-- C1 (amended): `upload_matches` applies the per-record write — with
no odds validation — to each element in the given order and returns one
outcome per element plus a count equal to the number of elements; every
element's outcome carries its own `match_id` and an `inserted`/`updated`
status, no element's failure aborts the rest, and every element's write
(valid odds or not) is keyed in the store afterwards. -/
theorem C1_batch_processes_every_element (ms : List MatchIn) (db : DB) :
    (upload_matches ms db).1.count = ms.length ∧
    List.Forall₂ (fun (o : IngestOutcome) (m : MatchIn) =>
        o.match_id = m.match_id ∧
        (o.status = "inserted" ∨ o.status = "updated"))
      (upload_matches ms db).1.results ms ∧
    ∀ m ∈ ms, ∃ r ∈ (upload_matches ms db).2.«matches»,
      r.match_id = m.match_id := by
  rw [upload_matches_eq]
  refine ⟨?_, runBatch_outcomes ms db, ?_⟩
  · exact (runBatch_outcomes ms db).length_eq
  · intro m hm
    exact runBatch_writes_all ms db m hm

/-- C1 (witness): the amended theorem applied to the example batch. -/
theorem C1_batch_witness :
    (upload_matches batch5 DB.empty).1.count = 5 ∧
    ∃ r ∈ (upload_matches batch5 DB.empty).2.«matches», r.match_id = 3 := by
  have h := C1_batch_processes_every_element batch5 DB.empty
  exact ⟨by simpa [batch5] using h.1,
         h.2.2 ⟨3, "A3", "B3", 1, 3, 4, "s"⟩ (by simp [batch5])⟩

/-- C2: `add_match` rejects with `invalidOdds`, leaving the whole state
(store, audit CSV, results) unchanged, exactly when one of the three
odds is not strictly greater than 1; when all three exceed 1 it performs
the write and reports its outcome. -/
theorem C2_add_match_rejects_iff (m : MatchIn) (db : DB) :
    (add_match m db = (.error .invalidOdds, db) ↔
      m.odds_h ≤ 1 ∨ m.odds_x ≤ 1 ∨ m.odds_a ≤ 1) ∧
    (1 < m.odds_h ∧ 1 < m.odds_x ∧ 1 < m.odds_a →
      add_match m db =
        (.ok (insert_or_update_match m db).1,
         (insert_or_update_match m db).2)) := by
  by_cases hc : m.odds_h ≤ 1 ∨ m.odds_x ≤ 1 ∨ m.odds_a ≤ 1
  · refine ⟨iff_of_true (by simp [add_match, hc]) hc, ?_⟩
    rintro ⟨h1, h2, h3⟩
    rcases hc with h | h | h <;> linarith
  · refine ⟨iff_of_false ?_ hc, fun _ => by simp [add_match, hc]⟩
    simp [add_match, hc]

/-- C2 (witness): `odds_h = 1.0` is rejected with the state untouched;
`odds_h = 1.01` is accepted and written. -/
theorem C2_add_match_witness :
    add_match ⟨1, "A", "B", 1, 3, 4, "c"⟩ DB.empty =
      (.error .invalidOdds, DB.empty) ∧
    add_match ⟨1, "A", "B", 101/100, 3, 4, "c"⟩ DB.empty =
      (.ok (insert_or_update_match ⟨1, "A", "B", 101/100, 3, 4, "c"⟩
              DB.empty).1,
       (insert_or_update_match ⟨1, "A", "B", 101/100, 3, 4, "c"⟩
          DB.empty).2) :=
  ⟨(C2_add_match_rejects_iff _ _).1.mpr (by norm_num),
   (C2_add_match_rejects_iff _ _).2 (by norm_num)⟩

/-- C3: the upsert inserts a fresh row exactly when no row with the key
exists and reports `inserted`; otherwise it overwrites every mutable
field of the existing rows for that key (refreshing the timestamp) and
reports `updated`; afterwards the key maps to the freshly written row;
key uniqueness is preserved by each write and holds after any batch of
ingestions from the empty store. -/
theorem C3_upsert (m : MatchIn) (db : DB) :
    (db.findMatch m.match_id = none →
      insert_or_update_match m db =
        (⟨"inserted", m.match_id⟩,
         { db with «matches» := db.«matches» ++ [rowOf m db.clock],
                   csv := db.csv ++ [csvLineOf m db.clock],
                   clock := db.clock + 1 })) ∧
    (db.findMatch m.match_id ≠ none →
      insert_or_update_match m db =
        (⟨"updated", m.match_id⟩,
         { db with
             «matches» := db.«matches».map (overwriteRow m db.clock),
             csv := db.csv ++ [csvLineOf m db.clock],
             clock := db.clock + 1 })) ∧
    ((insert_or_update_match m db).2).findMatch m.match_id =
      some (rowOf m db.clock) ∧
    ((db.«matches».map MatchRow.match_id).Nodup →
      (((insert_or_update_match m db).2).«matches».map
        MatchRow.match_id).Nodup) ∧
    ∀ ms : List MatchIn,
      (((upload_matches ms DB.empty).2).«matches».map
        MatchRow.match_id).Nodup := by
  refine ⟨?_, ?_, findMatch_after_write m db, nodup_ids_after_write m db, ?_⟩
  · intro h
    simp [insert_or_update_match, h]
  · intro h
    cases hf : db.findMatch m.match_id with
    | none => exact absurd hf h
    | some r0 => simp [insert_or_update_match, hf]
  · intro ms
    rw [upload_matches_eq]
    exact runBatch_nodup ms DB.empty (by simp [DB.empty])

/-- C3 (witness): inserting into the empty store takes the `inserted`
branch. -/
theorem C3_upsert_witness :
    insert_or_update_match ⟨7, "H", "A", 2, 3, 4, "c"⟩ DB.empty =
      (⟨"inserted", 7⟩,
       { «matches» := [rowOf ⟨7, "H", "A", 2, 3, 4, "c"⟩ 0],
         results := [],
         csv := [csvLineOf ⟨7, "H", "A", 2, 3, 4, "c"⟩ 0],
         clock := 1 }) :=
  (C3_upsert ⟨7, "H", "A", 2, 3, 4, "c"⟩ DB.empty).1 rfl

/-- C4: an accepted write (either branch) appends exactly one CSV line
holding the full field set and the very timestamp written to the store's
row for that key, leaving all prior CSV lines in place. -/
theorem C4_audit_append (m : MatchIn) (db : DB) :
    ((insert_or_update_match m db).2).csv =
      db.csv ++ [csvLineOf m db.clock] ∧
    ((insert_or_update_match m db).2).findMatch m.match_id =
      some (rowOf m db.clock) ∧
    (csvLineOf m db.clock).created_at = (rowOf m db.clock).created_at := by
  refine ⟨?_, findMatch_after_write m db, rfl⟩
  cases h : db.findMatch m.match_id <;>
    simp [insert_or_update_match, h]

/-- C5: for a stored match (with nonzero minimal odds, so the division
is defined) `predict` succeeds; the pick minimises the three stored
odds, `odds_used` is the stored odds of the pick, and the confidence is
`1 / odds_used` clamped to `[0.5, 0.95]` and rounded to two decimals. -/
theorem C5_predict_formula (id : Int) (db : DB) (r : MatchRow)
    (hf : db.findMatch id = some r)
    (hnz : oddsOf (pickMin r.odds_h r.odds_x r.odds_a)
      r.odds_h r.odds_x r.odds_a ≠ 0) :
    ∃ p : Prediction, predict id db = .ok p ∧
      p.pick = pickMin r.odds_h r.odds_x r.odds_a ∧
      p.odds_used = oddsOf p.pick r.odds_h r.odds_x r.odds_a ∧
      p.odds_used ≤ r.odds_h ∧ p.odds_used ≤ r.odds_x ∧
      p.odds_used ≤ r.odds_a ∧
      p.confidence =
        pyRound2 (max (1/2) (min (19/20) (1 / p.odds_used))) := by
  obtain ⟨l1, l2, l3⟩ := oddsOf_pickMin_le r.odds_h r.odds_x r.odds_a
  exact ⟨_, predict_found id db r hf hnz, rfl, rfl, l1, l2, l3, rfl⟩

/-- C5 (witness): the spec scenario `odds = 1.5 / 3.0 / 6.0` yields
pick `HOME`, `odds_used = 1.5` and `confidence = 0.67`. -/
theorem C5_predict_witness :
    (∃ p : Prediction, predict 1 dbA = .ok p ∧
      p.pick = pickMin (3/2) 3 6 ∧
      p.odds_used = oddsOf p.pick (3/2) 3 6 ∧
      p.odds_used ≤ 3/2 ∧ p.odds_used ≤ 3 ∧ p.odds_used ≤ 6 ∧
      p.confidence =
        pyRound2 (max (1/2) (min (19/20) (1 / p.odds_used)))) ∧
    predict 1 dbA = .ok ⟨1, "Alpha", "Beta", .HOME, 67/100, 3/2⟩ := by
  have hpick : pickMin ((3:ℚ)/2) 3 6 = .HOME :=
    (pickMin_eq_HOME ((3:ℚ)/2) 3 6).mpr (by norm_num)
  have hnz : oddsOf (pickMin (rowOf matchA 0).odds_h
      (rowOf matchA 0).odds_x (rowOf matchA 0).odds_a)
      (rowOf matchA 0).odds_h (rowOf matchA 0).odds_x
      (rowOf matchA 0).odds_a ≠ 0 := by
    simp only [rowOf, matchA, hpick, oddsOf]
    norm_num
  constructor
  · have h := C5_predict_formula 1 dbA (rowOf matchA 0) rfl hnz
    simpa [rowOf, matchA] using h
  · have h := predict_found 1 dbA (rowOf matchA 0) rfl hnz
    rw [h]
    simp only [rowOf, matchA, hpick, oddsOf]
    norm_num [pyRound2, roundHalfEven, Prediction.mk.injEq]

/-- C6: for a stored match (with defined division) the pick follows the
fixed preference order HOME, DRAW, AWAY: HOME whenever the home odds are
a weak minimum, DRAW only when strictly below home and weakly below
away, AWAY only when strictly below both. -/
theorem C6_predict_tiebreak (id : Int) (db : DB) (r : MatchRow)
    (hf : db.findMatch id = some r)
    (hnz : oddsOf (pickMin r.odds_h r.odds_x r.odds_a)
      r.odds_h r.odds_x r.odds_a ≠ 0) :
    ∃ p : Prediction, predict id db = .ok p ∧
      (p.pick = .HOME ↔ r.odds_h ≤ r.odds_x ∧ r.odds_h ≤ r.odds_a) ∧
      (p.pick = .DRAW ↔ r.odds_x < r.odds_h ∧ r.odds_x ≤ r.odds_a) ∧
      (p.pick = .AWAY ↔ r.odds_a < r.odds_h ∧ r.odds_a < r.odds_x) := by
  exact ⟨_, predict_found id db r hf hnz,
    pickMin_eq_HOME r.odds_h r.odds_x r.odds_a,
    pickMin_eq_DRAW r.odds_h r.odds_x r.odds_a,
    pickMin_eq_AWAY r.odds_h r.odds_x r.odds_a⟩

/-- C6 (witness): the spec's tie scenario, all three odds equal to 2.0,
picks HOME. -/
theorem C6_predict_tiebreak_witness :
    ∃ p : Prediction, predict 2 dbT = .ok p ∧ p.pick = .HOME := by
  obtain ⟨p, hp, hH, _, _⟩ :=
    C6_predict_tiebreak 2 dbT (rowOf matchT 0) rfl (by decide)
  exact ⟨p, hp, hH.mpr (by decide)⟩

/-- C7: ingesting a valid record through `add_match` and then reading
its id back returns a row whose caller-supplied fields all equal the
record's, and that row also appears in the `show_matches` listing. -/
theorem C7_read_after_write (m : MatchIn) (db : DB)
    (h1 : 1 < m.odds_h) (h2 : 1 < m.odds_x) (h3 : 1 < m.odds_a) :
    ∃ o : IngestOutcome,
      add_match m db = (.ok o, (insert_or_update_match m db).2) ∧
      ∃ r : MatchRow,
        ((insert_or_update_match m db).2).findMatch m.match_id = some r ∧
        r.match_id = m.match_id ∧ r.home = m.home ∧ r.away = m.away ∧
        r.odds_h = m.odds_h ∧ r.odds_x = m.odds_x ∧
        r.odds_a = m.odds_a ∧ r.source = m.source ∧
        r ∈ show_matches ((insert_or_update_match m db).2) := by
  refine ⟨(insert_or_update_match m db).1,
    (C2_add_match_rejects_iff m db).2 ⟨h1, h2, h3⟩,
    rowOf m db.clock, findMatch_after_write m db,
    rfl, rfl, rfl, rfl, rfl, rfl, rfl, ?_⟩
  have hmem := List.mem_of_find?_eq_some (findMatch_after_write m db)
  exact ((List.perm_insertionSort byRecency _).mem_iff).mpr hmem

/-- C7 (witness): the round trip on a concrete valid record. -/
theorem C7_read_after_write_witness :
    ∃ o : IngestOutcome,
      add_match ⟨9, "H9", "A9", 2, 3, 4, "c"⟩ DB.empty =
        (.ok o,
         (insert_or_update_match ⟨9, "H9", "A9", 2, 3, 4, "c"⟩
            DB.empty).2) ∧
      ∃ r : MatchRow,
        ((insert_or_update_match ⟨9, "H9", "A9", 2, 3, 4, "c"⟩
            DB.empty).2).findMatch 9 = some r ∧
        r.match_id = 9 ∧ r.home = "H9" ∧ r.away = "A9" ∧
        r.odds_h = 2 ∧ r.odds_x = 3 ∧ r.odds_a = 4 ∧ r.source = "c" ∧
        r ∈ show_matches
          ((insert_or_update_match ⟨9, "H9", "A9", 2, 3, 4, "c"⟩
              DB.empty).2) :=
  C7_read_after_write ⟨9, "H9", "A9", 2, 3, 4, "c"⟩ DB.empty
    (by norm_num) (by norm_num) (by norm_num)

/-- C8: `show_matches` returns every stored row exactly once (it is a
permutation of the table) and the returned sequence is sorted in
descending order of the rows' last-write timestamps. -/
theorem C8_show_matches_sorted (db : DB) :
    (show_matches db).Perm db.«matches» ∧
    List.Sorted byRecency (show_matches db) :=
  ⟨List.perm_insertionSort byRecency db.«matches»,
   List.sorted_insertionSort byRecency db.«matches»⟩

/-- C9: `insert_result` appends exactly one new row to the results
table — so repeated submissions for one `match_id` pile up — and leaves
the matches table and the audit CSV untouched, reporting
`inserted_result` with the record's id. -/
theorem C9_insert_result_appends (r : ResultIn) (db : DB) :
    (insert_result r db).1 = ⟨"inserted_result", r.match_id⟩ ∧
    ((insert_result r db).2).results =
      db.results ++
        [⟨db.results.length + 1, r.match_id, r.ht_score, r.ft_score,
          db.clock, r.source⟩] ∧
    ((insert_result r db).2).«matches» = db.«matches» ∧
    ((insert_result r db).2).csv = db.csv :=
  ⟨rfl, rfl, rfl, rfl⟩

/-- C10: batch ingestion writes a record without any odds check, and
`predict` divides by the stored odds of the pick with no zero guard:
whenever the written record's minimal odds are 0, `predict` on its id
fails with the division error. -/
theorem C10_predict_div_by_zero (m : MatchIn) (db : DB)
    (hz : oddsOf (pickMin m.odds_h m.odds_x m.odds_a)
      m.odds_h m.odds_x m.odds_a = 0) :
    predict m.match_id ((upload_matches [m] db).2) =
      .error .zeroDivision := by
  rw [upload_matches_eq]
  have hf : ((runBatch [m] db).2).findMatch m.match_id =
      some (rowOf m db.clock) := by
    simpa [runBatch] using findMatch_after_write m db
  simp [predict, hf, rowOf, hz]

/-- C10 (witness): a record with all odds 0.0 goes through the batch
path unchecked, and `predict` then raises the division error. -/
theorem C10_predict_div_by_zero_witness :
    predict 10 ((upload_matches [⟨10, "Z1", "Z2", 0, 0, 0, "c"⟩]
        DB.empty).2) = .error .zeroDivision :=
  C10_predict_div_by_zero ⟨10, "Z1", "Z2", 0, 0, 0, "c"⟩ DB.empty
    (by decide)

end BeastBet
